import Mathlib

/-!
Verification of the hydrology / terrain-generation core of the
Perlin-noise world generator.

The development below is a shallow embedding of the JavaScript sources:

* `src/js/terrain.worker.js` — the droplet hydrology simulator
  (`simulateDroplet`, `handleGenerateRivers`) of the current
  (Phase 20.5) revision of the worker;
* the `PerlinNoise` module (`noise.js`) — the Mulberry32 PRNG that
  drives droplet start-cell selection;
* `src/js/ui.js` — `generateTemperatureAt`, the
  `TerrainWorkerController` finite state machine and the
  `generateRivers` caller with its fallback policy;
* the worker preview path `handleGeneratePreview` — its temperature
  formula.

JavaScript numbers are modelled by `JNum`: exact rationals plus the
three non-finite values (`NaN`, `Infinity`, `-Infinity`), with the
IEEE comparison semantics the source relies on.  Typed arrays become
functions out of `ℕ` (linear index `y * width + x`), and in-place
mutation becomes explicit state passing.
-/

/-- A JavaScript number: a finite value (modelled exactly as a rational)
or one of the non-finite values `Infinity`, `-Infinity`, `NaN`. -/
inductive JNum where
  | fin (q : ℚ)
  | posInf
  | negInf
  | nan
deriving DecidableEq, Repr

namespace JNum

/-- `Number.isFinite`. -/
def jfinite : JNum → Bool
  | fin _ => true
  | _ => false

/-- JavaScript `<` (false whenever either side is `NaN`). -/
def jlt : JNum → JNum → Bool
  | fin a, fin b => a < b
  | fin _, posInf => true
  | negInf, fin _ => true
  | negInf, posInf => true
  | _, _ => false

/-- JavaScript `<=` (false whenever either side is `NaN`). -/
def jle : JNum → JNum → Bool
  | fin a, fin b => a ≤ b
  | fin _, posInf => true
  | negInf, fin _ => true
  | negInf, posInf => true
  | negInf, negInf => true
  | posInf, posInf => true
  | _, _ => false

/-- JavaScript `>=`, as used by the overflow decision. -/
def jge (a b : JNum) : Bool := jle b a

/-- Add a finite constant to a JavaScript number. -/
def jaddQ : JNum → ℚ → JNum
  | fin a, q => fin (a + q)
  | posInf, _ => posInf
  | negInf, _ => negInf
  | nan, _ => nan

/-- Subtract a finite constant from a JavaScript number. -/
def jsubQ : JNum → ℚ → JNum
  | fin a, q => fin (a - q)
  | posInf, _ => posInf
  | negInf, _ => negInf
  | nan, _ => nan

/-- JavaScript subtraction of two numbers. -/
def jsub : JNum → JNum → JNum
  | fin a, fin b => fin (a - b)
  | fin _, posInf => negInf
  | fin _, negInf => posInf
  | posInf, fin _ => posInf
  | posInf, negInf => posInf
  | negInf, fin _ => negInf
  | negInf, posInf => negInf
  | _, _ => nan

/-- Multiply a JavaScript number by a finite constant
(`0 * Infinity` is `NaN`, matching IEEE). -/
def jscale (q : ℚ) : JNum → JNum
  | fin a => fin (q * a)
  | posInf => if 0 < q then posInf else if q < 0 then negInf else nan
  | negInf => if 0 < q then negInf else if q < 0 then posInf else nan
  | nan => nan

end JNum

open JNum

/-- Pointwise update of a raster, `raster[i] = v`. -/
def upd {α : Type} (f : ℕ → α) (i : ℕ) (v : α) : ℕ → α :=
  fun j => if j = i then v else f j


/-- The worker raster state (`mapData` of `terrain.worker.js`): the
height, moisture, temperature, flux and lake rasters, addressed by
linear index `y * width + x`.  The moisture and temperature rasters are
carried but never written by the river pipeline. -/
structure MapSt where
  hmap : ℕ → JNum
  moisture : ℕ → ℚ
  temp : ℕ → ℚ
  flux : ℕ → ℚ
  lakes : ℕ → ℕ

/-- The configuration consumed by the droplet simulation: map
dimensions, `config.runtime.seaLevel`, and the
`WORLD_CONFIG.river` / `WORLD_CONFIG.lake` / progress constants. -/
structure Cfg where
  width : ℕ
  mh : ℕ
  seaLevel : ℚ
  maxIter : ℕ
  initialWater : ℚ
  evapRate : ℚ
  minWater : ℚ
  depositionRate : ℚ
  erosionRate : ℚ
  minSlope : ℚ
  minLakeDepth : ℚ
  overflowTol : ℚ
  chunkSize : ℕ

/-- The concrete configuration of the source
(`RIVER_GEN_CONSTANTS`, `LAKE_CONSTANTS`, `PROGRESS_CONSTANTS` of
`config.js`, with the 300 by 200 `MAP_CONFIG` and the default sea
level 0.35). -/
def workerCfg : Cfg :=
  { width := 300
    mh := 200
    seaLevel := 7/20
    maxIter := 1000
    initialWater := 1
    evapRate := 1/50
    minWater := 1/100
    depositionRate := 1/125
    erosionRate := 3/1000
    minSlope := 1/100
    minLakeDepth := 1/50
    overflowTol := 1/1000
    chunkSize := 500 }

/-- The 8 neighbor offsets scanned by `simulateDroplet`, in source
order. -/
def neighborOffsets : List (ℤ × ℤ) :=
  [(-1, -1), (0, -1), (1, -1), (-1, 0), (1, 0), (-1, 1), (0, 1), (1, 1)]

/-- Result of a neighbor scan: coordinates and height of the best
candidate so far. -/
structure Nbr where
  nx : ℕ
  ny : ℕ
  h : JNum
deriving DecidableEq, Repr

/-- The neighbor scan of `simulateDroplet`: walk the 8 neighbors with
bounds checks and keep the strictly lowest height, starting from the
given reference height at the current cell.  The same loop is used for
the steepest-descent scan (reference = current height) and for the
post-deposition overflow scan (reference = raised height). -/
def scanLowest (cfg : Cfg) (hmap : ℕ → JNum) (x y : ℕ) (h0 : JNum) : Nbr :=
  neighborOffsets.foldl
    (fun b d =>
      let nxi : ℤ := (x : ℤ) + d.1
      let nyi : ℤ := (y : ℤ) + d.2
      if 0 ≤ nxi ∧ nxi < (cfg.width : ℤ) ∧ 0 ≤ nyi ∧ nyi < (cfg.mh : ℤ) then
        let nh := hmap (nyi.toNat * cfg.width + nxi.toNat)
        if jlt nh b.h then ⟨nxi.toNat, nyi.toNat, nh⟩ else b
      else b)
    ⟨x, y, h0⟩

/-- The per-droplet loop state: raster state, current cell, remaining
water volume, the `visited` cycle-detection set, the `closedSet` of
failed spill attempts, and the accumulated path length. -/
structure DropSt where
  m : MapSt
  x : ℕ
  y : ℕ
  water : ℚ
  visited : List ℕ
  closed : List ℕ
  pathLen : ℕ

/-- Outcome of one iteration of the droplet loop: either the droplet
stopped (`break`), or it moved on to the next iteration. -/
inductive BodyRes where
  | done (m : MapSt) (pathLen : ℕ)
  | next (st : DropSt)

/-- The raster state carried by a loop-body outcome. -/
def BodyRes.mapSt : BodyRes → MapSt
  | .done m _ => m
  | .next st => st.m

/-- The erosion block and the move to the next cell, shared by the
downhill path and the successful-spill path of the loop body
(`slope = currentHeight - minHeight` of the first scan; erosion re-reads
the stored height, is skipped when the result is non-finite, and is
clamped at sea level). -/
def erodeAndMove (cfg : Cfg) (m : MapSt) (idx : ℕ) (ch minH : JNum)
    (nx ny : ℕ) (w : ℚ) (visited closed : List ℕ) (pathLen : ℕ) : BodyRes :=
  let slope := jsub ch minH
  let m' :=
    if jlt (.fin cfg.minSlope) slope then
      let amount := jscale (cfg.erosionRate * w) slope
      let newH := jsub (m.hmap idx) amount
      if jfinite newH ∧ jge newH (.fin cfg.seaLevel) then
        { m with hmap := upd m.hmap idx newH }
      else if ¬ jfinite newH then m
      else { m with hmap := upd m.hmap idx (.fin cfg.seaLevel) }
    else m
  .next ⟨m', nx, ny, w, visited, closed, pathLen + 1⟩

/-- The lake-marking write of `simulateDroplet`:
`if (h > seaLevel + MIN_LAKE_DEPTH) lakes[idx] = 1`, where `h` is the
height against which the source tests (the current height in the
closed-set branch, the deposition-raised height in the failed-spill
branch). -/
def markLake (cfg : Cfg) (m : MapSt) (idx : ℕ) (h : JNum) : MapSt :=
  if jlt (.fin (cfg.seaLevel + cfg.minLakeDepth)) h then
    { m with lakes := upd m.lakes idx 1 }
  else m

/-- The local-minimum handler of `simulateDroplet` (fill and spill):
closed-set guard, deposition with its finiteness check, overflow
re-scan against the raised height, and the overflow decision with the
0.001 tolerance. -/
def localMinima (cfg : Cfg) (m1 : MapSt) (x y : ℕ) (ch s1h : JNum) (w : ℚ)
    (visited closed : List ℕ) (pathLen : ℕ) : BodyRes :=
  let idx := y * cfg.width + x
  if idx ∈ closed then .done (markLake cfg m1 idx ch) pathLen
  else
    let newH := jaddQ ch (cfg.depositionRate * w)
    if ¬ jfinite newH then .done m1 pathLen
    else
      let m2 := { m1 with hmap := upd m1.hmap idx newH }
      let s2 := scanLowest cfg m2.hmap x y newH
      if jge newH (jsubQ s2.h cfg.overflowTol) ∧ (s2.nx ≠ x ∨ s2.ny ≠ y) then
        erodeAndMove cfg m2 idx ch s1h s2.nx s2.ny w visited (idx :: closed) pathLen
      else .done (markLake cfg m2 idx newH) pathLen

/-- The steepest-descent scan and branch of the loop body: find the
strictly lowest neighbor; on a local minimum run the fill-and-spill
handler, otherwise erode and move downhill. -/
def descendStep (cfg : Cfg) (m1 : MapSt) (x y : ℕ) (ch : JNum) (w : ℚ)
    (visited closed : List ℕ) (pathLen : ℕ) : BodyRes :=
  let idx := y * cfg.width + x
  let s1 := scanLowest cfg m1.hmap x y ch
  if s1.nx = x ∧ s1.ny = y then
    localMinima cfg m1 x y ch s1.h w visited closed pathLen
  else
    erodeAndMove cfg m1 idx ch s1.h s1.nx s1.ny w visited closed pathLen

/-- One iteration of the `for` loop of `simulateDroplet`
(`terrain.worker.js`): cycle guard, finiteness guard, evaporation,
ocean termination, flux accumulation, then the steepest-descent /
fill-and-spill step. -/
def dropletBody (cfg : Cfg) (st : DropSt) : BodyRes :=
  let idx := st.y * cfg.width + st.x
  if idx ∈ st.visited then .done st.m st.pathLen
  else
    let ch := st.m.hmap idx
    if ¬ jfinite ch then .done st.m st.pathLen
    else
      let w := st.water - cfg.evapRate
      if w < cfg.minWater then .done st.m st.pathLen
      else if jle ch (.fin cfg.seaLevel) then .done st.m st.pathLen
      else
        let m1 : MapSt := { st.m with flux := upd st.m.flux idx (st.m.flux idx + 1) }
        descendStep cfg m1 st.x st.y ch w (idx :: st.visited) st.closed st.pathLen

/-- The bounded droplet loop: at most `fuel` iterations of
`dropletBody`. -/
def dropletLoop (cfg : Cfg) : ℕ → DropSt → MapSt × ℕ
  | 0, st => (st.m, st.pathLen)
  | fuel + 1, st =>
    match dropletBody cfg st with
    | .done m p => (m, p)
    | .next st' => dropletLoop cfg fuel st'

/-- `simulateDroplet(startX, startY, config)`: run one droplet from the
given start cell for at most `MAX_DROPLET_ITERATIONS` iterations and
return the mutated raster state together with the path length. -/
def simulateDroplet (cfg : Cfg) (m : MapSt) (sx sy : ℕ) : MapSt × ℕ :=
  dropletLoop cfg cfg.maxIter ⟨m, sx, sy, cfg.initialWater, [], [], 0⟩

/-!
The Mulberry32 pseudo-random generator of the `PerlinNoise` module
(`noise.js`).  JavaScript 32-bit integer values are represented by
their unsigned bit pattern, a natural number below `2 ^ 32`; the
bitwise operators of the source act on that pattern.
-/

/-- `ToInt32` / `seed | 0`: the 32-bit pattern of an integer seed. -/
def toU32 (n : ℤ) : ℕ := (n % (2 ^ 32 : ℤ)).toNat

/-- `Math.imul`: 32-bit integer multiplication. -/
def imul32 (a b : ℕ) : ℕ := a * b % 2 ^ 32

/-- One step of the Mulberry32 generator (`mulberry32` of `noise.js`,
with the `PERLIN_CONSTANTS` values `0x6D2B79F5`, shifts 15 / 7 / 14 and
multipliers `1 | seed`, `61 | t`): returns the advanced internal state
and the produced value in `[0, 1)`. -/
def mulberryNext (s : ℕ) : ℕ × ℚ :=
  let s1 := (s + 0x6D2B79F5) % 2 ^ 32
  let t1 := imul32 (Nat.xor s1 (s1 >>> 15)) (Nat.lor 1 s1)
  let t2 := Nat.xor ((t1 + imul32 (Nat.xor t1 (t1 >>> 7)) (Nat.lor 61 t1)) % 2 ^ 32) t1
  let o := Nat.xor t2 (t2 >>> 14)
  (s1, (o : ℚ) / (2 ^ 32 : ℚ))

/-- The internal Mulberry32 state after `n` calls, starting from state
`s`. -/
def mulberryState (s : ℕ) : ℕ → ℕ
  | 0 => s
  | n + 1 => (mulberryNext (mulberryState s n)).1

/-- The `n`-th value of the `noise.random()` stream started from state
`s`. -/
def mulberrySeq (s : ℕ) (n : ℕ) : ℚ := (mulberryNext (mulberryState s n)).2

/-- The `PerlinNoise` class of `noise.js` defines methods
`mulberry32`, `init`, `random`, `fade`, `lerp`, `grad`, `get`, `fbm`;
it defines no method named `seed`.  `handleInit` of
`terrain.worker.js` reseeds only through
`if (typeof noise.seed === 'function') noise.seed(config.runtime.seed)`,
so the guard is taken on the false branch. -/
def noiseHasSeedMethod : Bool := false

/-- The Mulberry32 state of the worker noise singleton after
`handleInit(config)` ran with the given configured seed: the
constructor ran `init(0)`, and `handleInit` reseeds only when the
module exposes a `seed` method. -/
def workerRngAfterInit (configSeed : ℤ) : ℕ :=
  if noiseHasSeedMethod then toU32 configSeed else toU32 0

/-!
`handleGenerateRivers` of `terrain.worker.js` (Phase 20.5 revision):
reset the flux and lake rasters, collect the land cells, short-circuit
on a pure-ocean raster, otherwise run the droplets, consuming the
`noise.random()` stream for start-cell selection, and post the
progress / complete messages.
-/

/-- A message posted by the worker while generating rivers.  The flux
and lake rasters transferred with `complete` are returned in
`RunResult` instead. -/
inductive WMsg where
  | progress (completed total : ℕ)
  | complete (totalDroplets successfulDroplets : ℕ)
  | error (msg : String)
deriving DecidableEq, Repr

/-- Result of one `generateRivers` command: final raster state,
successful-droplet count, posted messages, and the advanced PRNG
state. -/
structure RunResult where
  m : MapSt
  succ : ℕ
  msgs : List WMsg
  rng : ℕ

/-- The land-cell list: all `(x, y)` in row-major order with
`height[y * width + x] > seaLevel`. -/
def landCoords (cfg : Cfg) (hmap : ℕ → JNum) : List (ℕ × ℕ) :=
  (List.range cfg.mh).flatMap fun y =>
    (List.range cfg.width).filterMap fun x =>
      if jlt (.fin cfg.seaLevel) (hmap (y * cfg.width + x)) then some (x, y) else none

/-- One iteration of the inner droplet loop of `handleGenerateRivers`
on the state (raster state, PRNG state, success count): draw
`noise.random()`, pick
`landCoords[Math.floor(random * landCoords.length)]`, run
`simulateDroplet`, and count the droplet as successful when its path
length is positive. -/
def runStep (cfg : Cfg) (lc : List (ℕ × ℕ)) (t : MapSt × ℕ × ℕ) :
    MapSt × ℕ × ℕ :=
  let r := mulberryNext t.2.1
  let ri := (⌊r.2 * (lc.length : ℚ)⌋).toNat
  let p := lc.getD ri (0, 0)
  let res := simulateDroplet cfg t.1 p.1 p.2
  (res.1, r.1, t.2.2 + if 0 < res.2 then 1 else 0)

/-- The inner droplet loop of `handleGenerateRivers`: `n` droplets in
sequence.  Returns the final raster state, PRNG state and success
count. -/
def runDroplets (cfg : Cfg) (lc : List (ℕ × ℕ)) :
    ℕ → MapSt → ℕ → ℕ → MapSt × ℕ × ℕ
  | 0, m, rng, succ => (m, rng, succ)
  | n + 1, m, rng, succ =>
    let s := runStep cfg lc (m, rng, succ)
    runDroplets cfg lc n s.1 s.2.1 s.2.2

/-- The chunked progress messages: one `progress` message per chunk of
`CHUNK_SIZE` droplets (the chunking affects only progress reporting;
the droplets themselves run in the same order). -/
def progressMsgs (cs total : ℕ) : List WMsg :=
  (List.range ((total + cs - 1) / cs)).map fun k =>
    .progress (min ((k + 1) * cs) total) total

/-- `handleGenerateRivers(numDroplets)` (Phase 20.5 revision), for an
initialized worker: re-create the flux and lake rasters as zeros,
collect the land cells, return a zero-result `complete` message when
the raster is pure ocean, otherwise simulate the droplets and post
`progress` messages followed by `complete`. -/
def handleGenerateRivers (cfg : Cfg) (m0 : MapSt) (numDroplets : ℕ) (rng : ℕ) :
    RunResult :=
  let m : MapSt := { m0 with flux := fun _ => 0, lakes := fun _ => 0 }
  let lc := landCoords cfg m.hmap
  if lc.length = 0 then
    { m := m, succ := 0, msgs := [.complete numDroplets 0], rng := rng }
  else
    let res := runDroplets cfg lc numDroplets m rng 0
    { m := res.1
      succ := res.2.2
      msgs := progressMsgs cfg.chunkSize numDroplets ++ [.complete numDroplets res.2.2]
      rng := res.2.1 }

/-!
The `TerrainWorkerController` finite state machine and the
`generateRivers` caller of `src/js/ui.js`.
-/

/-- The controller states of `TerrainWorkerController`. -/
inductive CtrlState where
  | idle
  | initializing
  | ready
  | generating
  | error
deriving DecidableEq, Repr

/-- The distinct concurrency error message thrown by
`TerrainWorkerController.generateRivers` when a generation is already
in flight. -/
def concurrencyMsg : String := "河流生成進行中，請稍候"

/-- Outcome of the synchronous prefix of
`TerrainWorkerController.generateRivers`: either the call throws before
touching the worker, or the controller transitions to `GENERATING` and
posts the `generateRivers` command. -/
inductive StartRes where
  | rejected (msg : String)
  | started
deriving DecidableEq, Repr

/-- The synchronous state validation of
`TerrainWorkerController.generateRivers` (ui.js lines 673 to 686):
a call in `GENERATING` throws the concurrency error, any state other
than `READY` throws an invalid-state error, and only from `READY` does
the controller move to `GENERATING` and send the command. -/
def ctrlGenStart : CtrlState → StartRes
  | .generating => .rejected concurrencyMsg
  | .ready => .started
  | _ => .rejected "Invalid state for generation"

/-- Outcome of the awaited worker generation, as observed by the
caller. -/
inductive WorkerGenOutcome where
  | success
  | failure (msg : String)

/-- Outcome of the exported `generateRivers` of ui.js, as observed by
its caller. -/
inductive CallerOutcome where
  | ok
  | raised (msg : String)
  | fellBack (reseededThisCall : Bool)
deriving DecidableEq, Repr

/-- The exported `generateRivers` of ui.js (lines 1073 to 1128):
`await workerController.init()` (whose failure, if any, is given by
`initFail`), then `noise.init(terrainConfig.seed)`, then
`await workerController.generateRivers(...)`.  The catch block
re-throws exactly the concurrency error and otherwise resets the
controller and runs the synchronous fallback.  The result records the
caller-visible outcome (with, for a fallback, whether
`noise.init(terrainConfig.seed)` was executed during this call before
the fallback ran), the final controller state, and whether a command
was sent to the worker. -/
def uiGenerateRivers (ctrl : CtrlState) (initFail : Option String)
    (gen : WorkerGenOutcome) : CallerOutcome × CtrlState × Bool :=
  match initFail with
  | some msg =>
    if msg = concurrencyMsg then (.raised msg, ctrl, false)
    else (.fellBack false, .idle, false)
  | none =>
    match ctrlGenStart ctrl with
    | .rejected m =>
      if m = concurrencyMsg then (.raised m, ctrl, false)
      else (.fellBack true, .idle, false)
    | .started =>
      match gen with
      | .success => (.ok, .ready, true)
      | .failure m =>
        if m = concurrencyMsg then (.raised m, .error, true)
        else (.fellBack true, .idle, true)

/-!
The temperature model: `generateTemperatureAt` of ui.js (the full
build path) and the inlined temperature computation of
`handleGeneratePreview` / `handleGenerateBlock` in the worker.  The
fractal noise sample entering each formula is passed in as a
parameter; both claims under test concern the combining formula, which
is a pure function of that sample.
-/

/-- Clamp to the unit interval, `Math.max(0, Math.min(1, t))`. -/
def clamp01 (t : ℚ) : ℚ := max 0 (min 1 t)

/-- `generateTemperatureAt(x, y, elevation)` of ui.js (lines 849 to
885) with the `TERRAIN_GEN_CONSTANTS` weights 0.7 / 0.3 and latitude
factor 2, parameterized by the elevation baseline and penalty rate:
latitude factor, noise blend, altitude penalty applied through
`Math.max(0, temperature - elevationPenalty)`, then the user offset,
then the clamp. -/
def generateTemperatureAt (mapH : ℕ) (baseline rate off : ℚ) (y : ℕ)
    (elev noiseV : ℚ) : ℚ :=
  let latitude := (y : ℚ) / (mapH : ℚ)
  let latitudeFactor := 1 - |latitude - 1/2| * 2
  let elevationPenalty := max 0 (elev - baseline) * rate
  let t1 := latitudeFactor * (7/10) + noiseV * (3/10)
  let t2 := max 0 (t1 - elevationPenalty)
  clamp01 (t2 + off)

/-- Modelled from the spec: the temperature formula claimed in the
specification,
`clamp01((1 - |y / height - 0.5| * 2) * 0.7 + noise * 0.3 -
max(0, elevation - baseline) * rate + offset)` — the altitude penalty
and the offset are applied inside a single final clamp. -/
def specTemperatureAt (mapH : ℕ) (baseline rate off : ℚ) (y : ℕ)
    (elev noiseV : ℚ) : ℚ :=
  let latitude := (y : ℚ) / (mapH : ℚ)
  let latitudeFactor := 1 - |latitude - 1/2| * 2
  let elevationPenalty := max 0 (elev - baseline) * rate
  clamp01 (latitudeFactor * (7/10) + noiseV * (3/10) - elevationPenalty + off)

/-- Modelled from the amended claim: the claimed temperature formula
with the altitude penalty floored at zero before the user offset is
added, `clamp01(max(0, (1 - |y / height - 0.5| * 2) * 0.7 +
noise * 0.3 - max(0, elevation - baseline) * rate) + offset)`. -/
def specFlooredTemperatureAt (mapH : ℕ) (baseline rate off : ℚ) (y : ℕ)
    (elev noiseV : ℚ) : ℚ :=
  clamp01 (max 0 ((1 - |(y : ℚ) / (mapH : ℚ) - 1/2| * 2) * (7/10) +
    noiseV * (3/10) - max 0 (elev - baseline) * rate) + off)

/-- JavaScript `%` (remainder truncated toward zero) on rationals. -/
def jsRem (a p : ℚ) : ℚ :=
  a - p * ((if 0 ≤ a / p then ⌊a / p⌋ else ⌈a / p⌉ : ℤ) : ℚ)

/-- The temperature computation inlined in `handleGeneratePreview` and
`handleGenerateBlock` of `terrain.worker.js` (lines 890 to 912):
latitude wrapped with period 10000, weights 0.6 / 0.4, and a
multiplicative elevation factor relative to sea level. -/
def previewTemperatureAt (seaLevel off : ℚ) (worldY : ℚ)
    (elev noiseV : ℚ) : ℚ :=
  let normalizedY := jsRem (jsRem worldY 10000 + 10000) 10000
  let latitude := normalizedY / 10000
  let latitudeFactor := 1 - |latitude - 1/2| * 2
  let elevationFactor :=
    if seaLevel < elev then max 0 (1 - (elev - seaLevel) * (1/2)) else 1
  clamp01 ((latitudeFactor * (3/5) + noiseV * (2/5)) * elevationFactor + off)

/-!
Concrete test fixtures used by the witness theorems: a 3 by 3 grid
with the river constants of the source, a one-cell pit that spills
after one deposition, a deep one-cell pit that becomes a lake, a pure
ocean raster, and a raster holding a `NaN` height.
-/

/-- A 3 by 3 grid with the numeric constants of `RIVER_GEN_CONSTANTS`
and `LAKE_CONSTANTS`. -/
def testCfg : Cfg :=
  { width := 3
    mh := 3
    seaLevel := 7/20
    maxIter := 1000
    initialWater := 1
    evapRate := 1/50
    minWater := 1/100
    depositionRate := 1/125
    erosionRate := 3/1000
    minSlope := 1/100
    minLakeDepth := 1/50
    overflowTol := 1/1000
    chunkSize := 500 }

/-- A raster state with the given height raster and zeroed companions. -/
def mkMap (h : ℕ → JNum) : MapSt :=
  ⟨h, fun _ => 0, fun _ => 0, fun _ => 0, fun _ => 0⟩

/-- A shallow one-cell pit at the center of the 3 by 3 grid: one
deposition raises it within tolerance of its neighbors, so the droplet
spills. -/
def spillMap : MapSt :=
  mkMap fun i => if i = 4 then .fin (1/2) else .fin (101/200)

/-- A deep one-cell pit at the center of the 3 by 3 grid: one
deposition is not enough, so the droplet stops and marks a lake. -/
def pitMap : MapSt :=
  mkMap fun i => if i = 4 then .fin (1/2) else .fin (9/10)

/-- A pure-ocean raster: every height below the 0.35 sea level. -/
def oceanMap : MapSt := mkMap fun _ => .fin (1/5)

/-- A raster whose heights are all `NaN`. -/
def nanMap : MapSt := mkMap fun _ => .nan

/-- A droplet loop state sitting at the center of the 3 by 3 grid with
full water and empty visited / closed sets. -/
def midSt (m : MapSt) : DropSt := ⟨m, 1, 1, 1, [], [], 0⟩

/-!
Helper lemmas about one iteration of the droplet loop.
-/

theorem upd_same {α : Type} (f : ℕ → α) (i : ℕ) (v : α) : upd f i v i = v := by
  simp [upd]

theorem upd_other {α : Type} (f : ℕ → α) (i j : ℕ) (v : α) (h : j ≠ i) :
    upd f i v j = f j := by
  simp [upd, h]

theorem BodyRes.mapSt_done (m : MapSt) (p : ℕ) : (BodyRes.done m p).mapSt = m := rfl

theorem BodyRes.mapSt_next (st : DropSt) : (BodyRes.next st).mapSt = st.m := rfl

theorem markLake_hmap (cfg : Cfg) (m : MapSt) (idx : ℕ) (h : JNum) :
    (markLake cfg m idx h).hmap = m.hmap := by
  unfold markLake; split_ifs <;> rfl

theorem markLake_flux (cfg : Cfg) (m : MapSt) (idx : ℕ) (h : JNum) :
    (markLake cfg m idx h).flux = m.flux := by
  unfold markLake; split_ifs <;> rfl

theorem markLake_lakes_frame (cfg : Cfg) (m : MapSt) (idx : ℕ) (h : JNum)
    (j : ℕ) (hj : j ≠ idx) : (markLake cfg m idx h).lakes j = m.lakes j := by
  unfold markLake; split_ifs <;> simp [upd, hj]

theorem markLake_lakes_char (cfg : Cfg) (m : MapSt) (idx : ℕ) (h : JNum) (j : ℕ) :
    (markLake cfg m idx h).lakes j = m.lakes j ∨
    (j = idx ∧ (markLake cfg m idx h).lakes j = 1 ∧
      jlt (.fin (cfg.seaLevel + cfg.minLakeDepth)) h = true) := by
  unfold markLake
  split_ifs with hc
  · by_cases hj : j = idx
    · exact Or.inr ⟨hj, by simp [hj, upd], hc⟩
    · exact Or.inl (by simp [upd, hj])
  · exact Or.inl rfl

theorem erodeAndMove_shape (cfg : Cfg) (m : MapSt) (idx : ℕ) (ch minH : JNum)
    (nx ny : ℕ) (w : ℚ) (v c : List ℕ) (p : ℕ) :
    ∃ m', erodeAndMove cfg m idx ch minH nx ny w v c p = .next ⟨m', nx, ny, w, v, c, p + 1⟩ :=
  ⟨_, rfl⟩

theorem erodeAndMove_flux (cfg : Cfg) (m : MapSt) (idx : ℕ) (ch minH : JNum)
    (nx ny : ℕ) (w : ℚ) (v c : List ℕ) (p : ℕ) :
    (erodeAndMove cfg m idx ch minH nx ny w v c p).mapSt.flux = m.flux := by
  simp only [erodeAndMove, BodyRes.mapSt]
  split_ifs <;> rfl

theorem erodeAndMove_lakes (cfg : Cfg) (m : MapSt) (idx : ℕ) (ch minH : JNum)
    (nx ny : ℕ) (w : ℚ) (v c : List ℕ) (p : ℕ) :
    (erodeAndMove cfg m idx ch minH nx ny w v c p).mapSt.lakes = m.lakes := by
  simp only [erodeAndMove, BodyRes.mapSt]
  split_ifs <;> rfl

theorem erodeAndMove_hmap_frame (cfg : Cfg) (m : MapSt) (idx : ℕ) (ch minH : JNum)
    (nx ny : ℕ) (w : ℚ) (v c : List ℕ) (p : ℕ) (j : ℕ) (hj : j ≠ idx) :
    (erodeAndMove cfg m idx ch minH nx ny w v c p).mapSt.hmap j = m.hmap j := by
  simp only [erodeAndMove, BodyRes.mapSt]
  split_ifs <;> simp [upd, hj]

theorem erodeAndMove_hmap_fin (cfg : Cfg) (m : MapSt) (idx : ℕ) (ch minH : JNum)
    (nx ny : ℕ) (w : ℚ) (v c : List ℕ) (p : ℕ) (j : ℕ) :
    (erodeAndMove cfg m idx ch minH nx ny w v c p).mapSt.hmap j = m.hmap j ∨
    jfinite ((erodeAndMove cfg m idx ch minH nx ny w v c p).mapSt.hmap j) = true := by
  simp only [erodeAndMove, BodyRes.mapSt]
  by_cases hj : j = idx
  · subst hj
    split_ifs with h1 h2 h3 <;>
      first
      | exact Or.inl rfl
      | exact Or.inr (by simpa [upd] using h2.1)
      | exact Or.inr (by simp [upd, jfinite])
  · split_ifs <;> simp [upd, hj]

theorem erodeAndMove_next_fields (cfg : Cfg) (m : MapSt) (idx : ℕ) (ch minH : JNum)
    (nx ny : ℕ) (w : ℚ) (v c : List ℕ) (p : ℕ) (st' : DropSt)
    (h : erodeAndMove cfg m idx ch minH nx ny w v c p = .next st') :
    st'.x = nx ∧ st'.y = ny ∧ st'.water = w ∧ st'.visited = v ∧ st'.closed = c ∧
    st'.pathLen = p + 1 ∧ st'.m.flux = m.flux ∧ st'.m.lakes = m.lakes := by
  simp only [erodeAndMove] at h
  cases h
  refine ⟨rfl, rfl, rfl, rfl, rfl, rfl, ?_, ?_⟩ <;> (split_ifs <;> rfl)

theorem erodeAndMove_ne_done (cfg : Cfg) (m : MapSt) (idx : ℕ) (ch minH : JNum)
    (nx ny : ℕ) (w : ℚ) (v c : List ℕ) (p : ℕ) (mm : MapSt) (q : ℕ)
    (h : erodeAndMove cfg m idx ch minH nx ny w v c p = .done mm q) : False := by
  simp only [erodeAndMove] at h
  exact BodyRes.noConfusion h

theorem localMinima_flux (cfg : Cfg) (m1 : MapSt) (x y : ℕ) (ch s1h : JNum)
    (w : ℚ) (v c : List ℕ) (p : ℕ) :
    (localMinima cfg m1 x y ch s1h w v c p).mapSt.flux = m1.flux := by
  simp only [localMinima]
  split_ifs <;>
    simp [BodyRes.mapSt_done, markLake_flux, erodeAndMove_flux]

theorem localMinima_lakes_frame (cfg : Cfg) (m1 : MapSt) (x y : ℕ) (ch s1h : JNum)
    (w : ℚ) (v c : List ℕ) (p : ℕ) (j : ℕ) (hj : j ≠ y * cfg.width + x) :
    (localMinima cfg m1 x y ch s1h w v c p).mapSt.lakes j = m1.lakes j := by
  simp only [localMinima]
  split_ifs <;>
    simp [BodyRes.mapSt_done, markLake_lakes_frame _ _ _ _ _ hj, erodeAndMove_lakes]

theorem localMinima_lakes_char (cfg : Cfg) (m1 : MapSt) (x y : ℕ) (ch s1h : JNum)
    (w : ℚ) (v c : List ℕ) (p : ℕ)
    (hch : m1.hmap (y * cfg.width + x) = ch) (j : ℕ) :
    (localMinima cfg m1 x y ch s1h w v c p).mapSt.lakes j = m1.lakes j ∨
    ((localMinima cfg m1 x y ch s1h w v c p).mapSt.lakes j = 1 ∧
      jlt (.fin (cfg.seaLevel + cfg.minLakeDepth))
        ((localMinima cfg m1 x y ch s1h w v c p).mapSt.hmap j) = true) := by
  simp only [localMinima]
  split_ifs with h1 h2 h3
  · rcases markLake_lakes_char cfg m1 (y * cfg.width + x) ch j with h | ⟨hj, h, hcond⟩
    · exact Or.inl h
    · refine Or.inr ⟨h, ?_⟩
      rw [BodyRes.mapSt_done, markLake_hmap, hj, hch]
      exact hcond
  · exact Or.inl (by simp [erodeAndMove_lakes])
  · rcases markLake_lakes_char cfg
        { m1 with hmap := upd m1.hmap (y * cfg.width + x) (jaddQ ch (cfg.depositionRate * w)) }
        (y * cfg.width + x) (jaddQ ch (cfg.depositionRate * w)) j with h | ⟨hj, h, hcond⟩
    · exact Or.inl h
    · refine Or.inr ⟨h, ?_⟩
      rw [BodyRes.mapSt_done, markLake_hmap, hj]
      simpa [upd] using hcond
  · exact Or.inl rfl

theorem localMinima_hmap_frame (cfg : Cfg) (m1 : MapSt) (x y : ℕ) (ch s1h : JNum)
    (w : ℚ) (v c : List ℕ) (p : ℕ) (j : ℕ) (hj : j ≠ y * cfg.width + x) :
    (localMinima cfg m1 x y ch s1h w v c p).mapSt.hmap j = m1.hmap j := by
  simp only [localMinima]
  split_ifs <;>
    simp [BodyRes.mapSt_done, markLake_hmap,
      erodeAndMove_hmap_frame _ _ _ _ _ _ _ _ _ _ _ _ hj, upd, hj]

theorem localMinima_hmap_fin (cfg : Cfg) (m1 : MapSt) (x y : ℕ) (ch s1h : JNum)
    (w : ℚ) (v c : List ℕ) (p : ℕ) (j : ℕ) :
    (localMinima cfg m1 x y ch s1h w v c p).mapSt.hmap j = m1.hmap j ∨
    jfinite ((localMinima cfg m1 x y ch s1h w v c p).mapSt.hmap j) = true := by
  simp only [localMinima]
  split_ifs with h1 h2 h3
  · exact Or.inl (by simp [BodyRes.mapSt_done, markLake_hmap])
  · set nH := jaddQ ch (cfg.depositionRate * w) with hnH
    set m2 : MapSt := { m1 with hmap := upd m1.hmap (y * cfg.width + x) nH } with hm2
    set s2 := scanLowest cfg m2.hmap x y nH with hs2
    rcases erodeAndMove_hmap_fin cfg m2 (y * cfg.width + x) ch s1h s2.nx s2.ny w v
        ((y * cfg.width + x) :: c) p j with h | h
    · rw [h]
      by_cases hj : j = y * cfg.width + x
      · subst hj
        exact Or.inr (by rw [hm2]; simpa [upd] using h2)
      · exact Or.inl (by rw [hm2]; simp [upd, hj])
    · exact Or.inr h
  · rw [BodyRes.mapSt_done, markLake_hmap]
    by_cases hj : j = y * cfg.width + x
    · subst hj
      exact Or.inr (by simpa [upd] using h2)
    · exact Or.inl (by simp [upd, hj])
  · exact Or.inl rfl

theorem localMinima_next (cfg : Cfg) (m1 : MapSt) (x y : ℕ) (ch s1h : JNum)
    (w : ℚ) (v c : List ℕ) (p : ℕ) (stN : DropSt)
    (h : localMinima cfg m1 x y ch s1h w v c p = .next stN) :
    stN.visited = v ∧ stN.water = w ∧ stN.pathLen = p + 1 ∧ stN.m.flux = m1.flux := by
  simp only [localMinima] at h
  split_ifs at h with h1 h2 h3
  obtain ⟨_, _, hw, hv, _, hp, hflux, _⟩ :=
    erodeAndMove_next_fields _ _ _ _ _ _ _ _ _ _ _ _ h
  exact ⟨hv, hw, hp, hflux⟩

theorem localMinima_done_pathLen (cfg : Cfg) (m1 : MapSt) (x y : ℕ) (ch s1h : JNum)
    (w : ℚ) (v c : List ℕ) (p : ℕ) (m : MapSt) (q : ℕ)
    (h : localMinima cfg m1 x y ch s1h w v c p = .done m q) : q = p := by
  simp only [localMinima] at h
  split_ifs at h with h1 h2 h3
  · cases h; rfl
  · exact (erodeAndMove_ne_done _ _ _ _ _ _ _ _ _ _ _ _ _ h).elim
  · cases h; rfl
  · cases h; rfl

theorem descendStep_flux (cfg : Cfg) (m1 : MapSt) (x y : ℕ) (ch : JNum)
    (w : ℚ) (v c : List ℕ) (p : ℕ) :
    (descendStep cfg m1 x y ch w v c p).mapSt.flux = m1.flux := by
  simp only [descendStep]
  split_ifs <;> simp [localMinima_flux, erodeAndMove_flux]

theorem descendStep_lakes_frame (cfg : Cfg) (m1 : MapSt) (x y : ℕ) (ch : JNum)
    (w : ℚ) (v c : List ℕ) (p : ℕ) (j : ℕ) (hj : j ≠ y * cfg.width + x) :
    (descendStep cfg m1 x y ch w v c p).mapSt.lakes j = m1.lakes j := by
  simp only [descendStep]
  split_ifs
  · exact localMinima_lakes_frame _ _ _ _ _ _ _ _ _ _ _ hj
  · simp [erodeAndMove_lakes]

theorem descendStep_lakes_char (cfg : Cfg) (m1 : MapSt) (x y : ℕ) (ch : JNum)
    (w : ℚ) (v c : List ℕ) (p : ℕ)
    (hch : m1.hmap (y * cfg.width + x) = ch) (j : ℕ) :
    (descendStep cfg m1 x y ch w v c p).mapSt.lakes j = m1.lakes j ∨
    ((descendStep cfg m1 x y ch w v c p).mapSt.lakes j = 1 ∧
      jlt (.fin (cfg.seaLevel + cfg.minLakeDepth))
        ((descendStep cfg m1 x y ch w v c p).mapSt.hmap j) = true) := by
  simp only [descendStep]
  split_ifs
  · exact localMinima_lakes_char _ _ _ _ _ _ _ _ _ _ hch j
  · exact Or.inl (by simp [erodeAndMove_lakes])

theorem descendStep_hmap_frame (cfg : Cfg) (m1 : MapSt) (x y : ℕ) (ch : JNum)
    (w : ℚ) (v c : List ℕ) (p : ℕ) (j : ℕ) (hj : j ≠ y * cfg.width + x) :
    (descendStep cfg m1 x y ch w v c p).mapSt.hmap j = m1.hmap j := by
  simp only [descendStep]
  split_ifs
  · exact localMinima_hmap_frame _ _ _ _ _ _ _ _ _ _ _ hj
  · exact erodeAndMove_hmap_frame _ _ _ _ _ _ _ _ _ _ _ _ hj

theorem descendStep_hmap_fin (cfg : Cfg) (m1 : MapSt) (x y : ℕ) (ch : JNum)
    (w : ℚ) (v c : List ℕ) (p : ℕ) (j : ℕ) :
    (descendStep cfg m1 x y ch w v c p).mapSt.hmap j = m1.hmap j ∨
    jfinite ((descendStep cfg m1 x y ch w v c p).mapSt.hmap j) = true := by
  simp only [descendStep]
  split_ifs
  · exact localMinima_hmap_fin _ _ _ _ _ _ _ _ _ _ _
  · exact erodeAndMove_hmap_fin _ _ _ _ _ _ _ _ _ _ _ _

theorem descendStep_next (cfg : Cfg) (m1 : MapSt) (x y : ℕ) (ch : JNum)
    (w : ℚ) (v c : List ℕ) (p : ℕ) (stN : DropSt)
    (h : descendStep cfg m1 x y ch w v c p = .next stN) :
    stN.visited = v ∧ stN.water = w ∧ stN.pathLen = p + 1 ∧ stN.m.flux = m1.flux := by
  simp only [descendStep] at h
  split_ifs at h
  · exact localMinima_next _ _ _ _ _ _ _ _ _ _ _ h
  · obtain ⟨_, _, hw, hv, _, hp, hflux, _⟩ :=
      erodeAndMove_next_fields _ _ _ _ _ _ _ _ _ _ _ _ h
    exact ⟨hv, hw, hp, hflux⟩

theorem descendStep_done_pathLen (cfg : Cfg) (m1 : MapSt) (x y : ℕ) (ch : JNum)
    (w : ℚ) (v c : List ℕ) (p : ℕ) (m : MapSt) (q : ℕ)
    (h : descendStep cfg m1 x y ch w v c p = .done m q) : q = p := by
  simp only [descendStep] at h
  split_ifs at h
  · exact localMinima_done_pathLen _ _ _ _ _ _ _ _ _ _ _ _ h
  · exact (erodeAndMove_ne_done _ _ _ _ _ _ _ _ _ _ _ _ _ h).elim

/-!
Lemmas about one full iteration of the droplet loop.
-/

theorem dropletBody_visited (cfg : Cfg) (st : DropSt)
    (h : st.y * cfg.width + st.x ∈ st.visited) :
    dropletBody cfg st = .done st.m st.pathLen := by
  simp [dropletBody, h]

theorem dropletBody_nonfinite (cfg : Cfg) (st : DropSt)
    (hnv : st.y * cfg.width + st.x ∉ st.visited)
    (h : jfinite (st.m.hmap (st.y * cfg.width + st.x)) = false) :
    dropletBody cfg st = .done st.m st.pathLen := by
  simp [dropletBody, hnv, h]

theorem dropletBody_ocean (cfg : Cfg) (st : DropSt)
    (h : jle (st.m.hmap (st.y * cfg.width + st.x)) (.fin cfg.seaLevel) = true) :
    dropletBody cfg st = .done st.m st.pathLen := by
  by_cases hv : st.y * cfg.width + st.x ∈ st.visited
  · simp [dropletBody, hv]
  · cases hh : st.m.hmap (st.y * cfg.width + st.x) with
    | fin c =>
      rw [hh] at h
      by_cases hw : st.water - cfg.evapRate < cfg.minWater
      · simp [dropletBody, hv, hh, hw, jfinite]
      · simp [dropletBody, hv, hh, hw, jfinite, h]
    | posInf => rw [hh] at h; simp [jle] at h
    | negInf => simp [dropletBody, hv, hh, jfinite]
    | nan => rw [hh] at h; simp [jle] at h

theorem dropletBody_frame (cfg : Cfg) (st : DropSt) (j : ℕ)
    (hj : j ≠ st.y * cfg.width + st.x) :
    (dropletBody cfg st).mapSt.hmap j = st.m.hmap j ∧
    (dropletBody cfg st).mapSt.flux j = st.m.flux j ∧
    (dropletBody cfg st).mapSt.lakes j = st.m.lakes j := by
  simp only [dropletBody]
  split_ifs <;>
    first
    | exact ⟨rfl, rfl, rfl⟩
    | refine ⟨descendStep_hmap_frame _ _ _ _ _ _ _ _ _ _ hj, ?_, ?_⟩
      · rw [descendStep_flux]
        exact upd_other _ _ _ _ hj
      · exact descendStep_lakes_frame _ _ _ _ _ _ _ _ _ _ hj

theorem dropletBody_flux_char (cfg : Cfg) (st : DropSt) :
    (dropletBody cfg st).mapSt.flux = st.m.flux ∨
    (st.y * cfg.width + st.x ∉ st.visited ∧
      (dropletBody cfg st).mapSt.flux =
        upd st.m.flux (st.y * cfg.width + st.x)
          (st.m.flux (st.y * cfg.width + st.x) + 1)) := by
  simp only [dropletBody]
  split_ifs <;>
    first
    | exact Or.inl rfl
    | exact Or.inr ⟨by assumption, descendStep_flux _ _ _ _ _ _ _ _ _⟩

theorem dropletBody_hmap_fin (cfg : Cfg) (st : DropSt) (j : ℕ) :
    (dropletBody cfg st).mapSt.hmap j = st.m.hmap j ∨
    jfinite ((dropletBody cfg st).mapSt.hmap j) = true := by
  simp only [dropletBody]
  split_ifs <;>
    first
    | exact Or.inl rfl
    | exact descendStep_hmap_fin _ _ _ _ _ _ _ _ _ _

theorem dropletBody_lakes_char (cfg : Cfg) (st : DropSt) (j : ℕ) :
    (dropletBody cfg st).mapSt.lakes j = st.m.lakes j ∨
    ((dropletBody cfg st).mapSt.lakes j = 1 ∧
      jlt (.fin (cfg.seaLevel + cfg.minLakeDepth))
        ((dropletBody cfg st).mapSt.hmap j) = true) := by
  simp only [dropletBody]
  split_ifs <;>
    first
    | exact Or.inl rfl
    | exact descendStep_lakes_char _ _ _ _ _ _ _ _ _ rfl j

theorem dropletBody_next (cfg : Cfg) (st : DropSt) (stN : DropSt)
    (h : dropletBody cfg st = .next stN) :
    st.y * cfg.width + st.x ∉ st.visited ∧
    stN.visited = (st.y * cfg.width + st.x) :: st.visited ∧
    stN.water = st.water - cfg.evapRate ∧
    stN.pathLen = st.pathLen + 1 ∧
    stN.m.flux = upd st.m.flux (st.y * cfg.width + st.x)
      (st.m.flux (st.y * cfg.width + st.x) + 1) := by
  simp only [dropletBody] at h
  split_ifs at h with h1 h2 h3 h4
  obtain ⟨hv, hw, hp, hflux⟩ := descendStep_next _ _ _ _ _ _ _ _ _ _ h
  exact ⟨h1, hv, hw, hp, hflux⟩

theorem dropletBody_done_pathLen (cfg : Cfg) (st : DropSt) (m : MapSt) (q : ℕ)
    (h : dropletBody cfg st = .done m q) : q = st.pathLen := by
  simp only [dropletBody] at h
  split_ifs at h <;>
    first
    | (cases h; rfl)
    | exact descendStep_done_pathLen _ _ _ _ _ _ _ _ _ _ _ h

theorem dropletBody_ocean_cell (cfg : Cfg) (st : DropSt) (i : ℕ)
    (h : jle (st.m.hmap i) (.fin cfg.seaLevel) = true) :
    (dropletBody cfg st).mapSt.hmap i = st.m.hmap i ∧
    (dropletBody cfg st).mapSt.flux i = st.m.flux i := by
  by_cases hi : i = st.y * cfg.width + st.x
  · subst hi
    rw [dropletBody_ocean cfg st h]
    exact ⟨rfl, rfl⟩
  · obtain ⟨h1, h2, _⟩ := dropletBody_frame cfg st i hi
    exact ⟨h1, h2⟩

/-!
Loop-level invariants, by induction on the remaining fuel.
-/

theorem dropletLoop_succ_done (cfg : Cfg) (n : ℕ) (st : DropSt) (m : MapSt) (p : ℕ)
    (h : dropletBody cfg st = .done m p) :
    dropletLoop cfg (n + 1) st = (m, p) := by
  simp [dropletLoop, h]

theorem dropletLoop_succ_next (cfg : Cfg) (n : ℕ) (st : DropSt) (stN : DropSt)
    (h : dropletBody cfg st = .next stN) :
    dropletLoop cfg (n + 1) st = dropletLoop cfg n stN := by
  simp [dropletLoop, h]

theorem dropletLoop_pathLen (cfg : Cfg) (fuel : ℕ) (st : DropSt) :
    (dropletLoop cfg fuel st).2 ≤ st.pathLen + fuel := by
  induction fuel generalizing st with
  | zero => simp [dropletLoop]
  | succ n ih =>
    cases hb : dropletBody cfg st with
    | done m p =>
      rw [dropletLoop_succ_done cfg n st m p hb]
      have := dropletBody_done_pathLen cfg st m p hb
      simp [this]
    | next stN =>
      rw [dropletLoop_succ_next cfg n st stN hb]
      obtain ⟨_, _, _, hp, _⟩ := dropletBody_next cfg st stN hb
      have := ih stN
      omega

theorem dropletLoop_hmap_fin (cfg : Cfg) (fuel : ℕ) (st : DropSt) (i : ℕ) :
    (dropletLoop cfg fuel st).1.hmap i = st.m.hmap i ∨
    jfinite ((dropletLoop cfg fuel st).1.hmap i) = true := by
  induction fuel generalizing st with
  | zero => exact Or.inl rfl
  | succ n ih =>
    cases hb : dropletBody cfg st with
    | done m p =>
      rw [dropletLoop_succ_done cfg n st m p hb]
      have h := dropletBody_hmap_fin cfg st i
      rw [hb] at h
      simpa [BodyRes.mapSt_done] using h
    | next stN =>
      rw [dropletLoop_succ_next cfg n st stN hb]
      have hbf := dropletBody_hmap_fin cfg st i
      rw [hb] at hbf
      rw [BodyRes.mapSt_next] at hbf
      rcases ih stN with h | h
      · rcases hbf with h2 | h2
        · exact Or.inl (h.trans h2)
        · rw [← h] at h2
          exact Or.inr h2
      · exact Or.inr h

theorem dropletLoop_ocean (cfg : Cfg) (fuel : ℕ) (st : DropSt) (i : ℕ)
    (h : jle (st.m.hmap i) (.fin cfg.seaLevel) = true) :
    (dropletLoop cfg fuel st).1.hmap i = st.m.hmap i ∧
    (dropletLoop cfg fuel st).1.flux i = st.m.flux i := by
  induction fuel generalizing st with
  | zero => exact ⟨rfl, rfl⟩
  | succ n ih =>
    cases hb : dropletBody cfg st with
    | done m p =>
      rw [dropletLoop_succ_done cfg n st m p hb]
      have hx := dropletBody_ocean_cell cfg st i h
      rw [hb] at hx
      exact hx
    | next stN =>
      rw [dropletLoop_succ_next cfg n st stN hb]
      have hx := dropletBody_ocean_cell cfg st i h
      rw [hb] at hx
      rw [BodyRes.mapSt_next] at hx
      have hN : jle (stN.m.hmap i) (.fin cfg.seaLevel) = true := by
        rw [hx.1]
        exact h
      have hrec := ih stN hN
      exact ⟨hrec.1.trans hx.1, hrec.2.trans hx.2⟩

theorem dropletLoop_flux_char (cfg : Cfg) (fuel : ℕ) (st : DropSt) (f0 : ℕ → ℚ) (i : ℕ)
    (hInv : st.m.flux i = f0 i ∨ (i ∈ st.visited ∧ st.m.flux i = f0 i + 1)) :
    (dropletLoop cfg fuel st).1.flux i = f0 i ∨
    (dropletLoop cfg fuel st).1.flux i = f0 i + 1 := by
  induction fuel generalizing st with
  | zero =>
    rcases hInv with h | ⟨_, h⟩
    · exact Or.inl h
    · exact Or.inr h
  | succ n ih =>
    cases hb : dropletBody cfg st with
    | done m p =>
      rw [dropletLoop_succ_done cfg n st m p hb]
      rcases dropletBody_flux_char cfg st with h | ⟨hnv, h⟩
      · rw [hb] at h
        have hfi : m.flux i = st.m.flux i := congrFun h i
        rcases hInv with h2 | ⟨_, h2⟩
        · exact Or.inl (by simpa [hfi] using h2)
        · exact Or.inr (by simpa [hfi] using h2)
      · rw [hb] at h
        have hfi : m.flux i =
            upd st.m.flux (st.y * cfg.width + st.x)
              (st.m.flux (st.y * cfg.width + st.x) + 1) i := congrFun h i
        by_cases hi : i = st.y * cfg.width + st.x
        · have hbase : st.m.flux i = f0 i := by
            rcases hInv with h2 | ⟨hmem, _⟩
            · exact h2
            · rw [hi] at hmem
              exact absurd hmem hnv
          rw [hi, upd_same, ← hi] at hfi
          exact Or.inr (by simp [hfi, hbase])
        · rw [upd_other _ _ _ _ hi] at hfi
          rcases hInv with h2 | ⟨_, h2⟩
          · exact Or.inl (by simp [hfi, h2])
          · exact Or.inr (by simp [hfi, h2])
    | next stN =>
      rw [dropletLoop_succ_next cfg n st stN hb]
      apply ih stN
      obtain ⟨hnv, hvis, _, _, hflux⟩ := dropletBody_next cfg st stN hb
      by_cases hi : i = st.y * cfg.width + st.x
      · refine Or.inr ⟨by rw [hvis, hi]; exact List.mem_cons_self _ _, ?_⟩
        have hbase : st.m.flux i = f0 i := by
          rcases hInv with h2 | ⟨hmem, _⟩
          · exact h2
          · rw [hi] at hmem
            exact absurd hmem hnv
        have : stN.m.flux i = st.m.flux i + 1 := by
          rw [hflux, hi, upd_same, ← hi]
        rw [this, hbase]
      · have hsame : stN.m.flux i = st.m.flux i := by
          rw [hflux]
          exact upd_other _ _ _ _ hi
        rcases hInv with h2 | ⟨hmem, h2⟩
        · exact Or.inl (hsame.trans h2)
        · exact Or.inr ⟨by rw [hvis]; exact List.mem_cons_of_mem _ hmem, hsame.trans h2⟩

/-!
Per-droplet consequences.
-/

theorem simulateDroplet_pathLen (cfg : Cfg) (m : MapSt) (sx sy : ℕ) :
    (simulateDroplet cfg m sx sy).2 ≤ cfg.maxIter := by
  have := dropletLoop_pathLen cfg cfg.maxIter ⟨m, sx, sy, cfg.initialWater, [], [], 0⟩
  simpa [simulateDroplet] using this

theorem simulateDroplet_flux_char (cfg : Cfg) (m : MapSt) (sx sy : ℕ) (i : ℕ) :
    (simulateDroplet cfg m sx sy).1.flux i = m.flux i ∨
    (simulateDroplet cfg m sx sy).1.flux i = m.flux i + 1 :=
  dropletLoop_flux_char cfg cfg.maxIter ⟨m, sx, sy, cfg.initialWater, [], [], 0⟩
    m.flux i (Or.inl rfl)

theorem simulateDroplet_hmap_fin (cfg : Cfg) (m : MapSt) (sx sy : ℕ) (i : ℕ) :
    (simulateDroplet cfg m sx sy).1.hmap i = m.hmap i ∨
    jfinite ((simulateDroplet cfg m sx sy).1.hmap i) = true :=
  dropletLoop_hmap_fin cfg cfg.maxIter ⟨m, sx, sy, cfg.initialWater, [], [], 0⟩ i

theorem simulateDroplet_ocean (cfg : Cfg) (m : MapSt) (sx sy : ℕ) (i : ℕ)
    (h : jle (m.hmap i) (.fin cfg.seaLevel) = true) :
    (simulateDroplet cfg m sx sy).1.hmap i = m.hmap i ∧
    (simulateDroplet cfg m sx sy).1.flux i = m.flux i :=
  dropletLoop_ocean cfg cfg.maxIter ⟨m, sx, sy, cfg.initialWater, [], [], 0⟩ i h

/-!
Run-level invariants: composing droplets inside
`handleGenerateRivers`.
-/

theorem runStep_flux (cfg : Cfg) (lc : List (ℕ × ℕ)) (t : MapSt × ℕ × ℕ) (i : ℕ) :
    (runStep cfg lc t).1.flux i = t.1.flux i ∨
    (runStep cfg lc t).1.flux i = t.1.flux i + 1 := by
  simp only [runStep]
  exact simulateDroplet_flux_char cfg t.1 _ _ i

theorem runStep_hmap_fin (cfg : Cfg) (lc : List (ℕ × ℕ)) (t : MapSt × ℕ × ℕ) (i : ℕ) :
    (runStep cfg lc t).1.hmap i = t.1.hmap i ∨
    jfinite ((runStep cfg lc t).1.hmap i) = true := by
  simp only [runStep]
  exact simulateDroplet_hmap_fin cfg t.1 _ _ i

theorem runStep_ocean (cfg : Cfg) (lc : List (ℕ × ℕ)) (t : MapSt × ℕ × ℕ) (i : ℕ)
    (h : jle (t.1.hmap i) (.fin cfg.seaLevel) = true) :
    (runStep cfg lc t).1.hmap i = t.1.hmap i ∧
    (runStep cfg lc t).1.flux i = t.1.flux i := by
  simp only [runStep]
  exact simulateDroplet_ocean cfg t.1 _ _ i h

theorem runDroplets_succ (cfg : Cfg) (lc : List (ℕ × ℕ)) (n : ℕ) (m : MapSt)
    (rng succ : ℕ) :
    runDroplets cfg lc (n + 1) m rng succ =
    runDroplets cfg lc n (runStep cfg lc (m, rng, succ)).1
      (runStep cfg lc (m, rng, succ)).2.1 (runStep cfg lc (m, rng, succ)).2.2 := by
  simp [runDroplets]

theorem runDroplets_flux (cfg : Cfg) (lc : List (ℕ × ℕ)) (n : ℕ) (m : MapSt)
    (rng succ : ℕ) (i : ℕ) :
    ∃ k : ℕ, k ≤ n ∧
      (runDroplets cfg lc n m rng succ).1.flux i = m.flux i + k := by
  induction n generalizing m rng succ with
  | zero => exact ⟨0, Nat.le_refl 0, by simp [runDroplets]⟩
  | succ n ih =>
    rw [runDroplets_succ]
    obtain ⟨k, hk, h⟩ := ih (runStep cfg lc (m, rng, succ)).1
      (runStep cfg lc (m, rng, succ)).2.1 (runStep cfg lc (m, rng, succ)).2.2
    rcases runStep_flux cfg lc (m, rng, succ) i with h2 | h2
    · exact ⟨k, Nat.le_succ_of_le hk, by rw [h, h2]⟩
    · refine ⟨k + 1, by omega, ?_⟩
      rw [h, h2]
      push_cast
      ring

theorem runDroplets_hmap_fin (cfg : Cfg) (lc : List (ℕ × ℕ)) (n : ℕ) (m : MapSt)
    (rng succ : ℕ) (i : ℕ) :
    (runDroplets cfg lc n m rng succ).1.hmap i = m.hmap i ∨
    jfinite ((runDroplets cfg lc n m rng succ).1.hmap i) = true := by
  induction n generalizing m rng succ with
  | zero => exact Or.inl (by simp [runDroplets])
  | succ n ih =>
    rw [runDroplets_succ]
    rcases ih (runStep cfg lc (m, rng, succ)).1
        (runStep cfg lc (m, rng, succ)).2.1 (runStep cfg lc (m, rng, succ)).2.2 with h | h
    · rcases runStep_hmap_fin cfg lc (m, rng, succ) i with h2 | h2
      · exact Or.inl (h.trans h2)
      · rw [← h] at h2
        exact Or.inr h2
    · exact Or.inr h

theorem runDroplets_ocean (cfg : Cfg) (lc : List (ℕ × ℕ)) (n : ℕ) (m : MapSt)
    (rng succ : ℕ) (i : ℕ) (h : jle (m.hmap i) (.fin cfg.seaLevel) = true) :
    (runDroplets cfg lc n m rng succ).1.hmap i = m.hmap i ∧
    (runDroplets cfg lc n m rng succ).1.flux i = m.flux i := by
  induction n generalizing m rng succ with
  | zero => exact ⟨by simp [runDroplets], by simp [runDroplets]⟩
  | succ n ih =>
    rw [runDroplets_succ]
    have hx := runStep_ocean cfg lc (m, rng, succ) i h
    have hN : jle ((runStep cfg lc (m, rng, succ)).1.hmap i) (.fin cfg.seaLevel) = true := by
      rw [hx.1]
      exact h
    have hrec := ih (runStep cfg lc (m, rng, succ)).1
      (runStep cfg lc (m, rng, succ)).2.1 (runStep cfg lc (m, rng, succ)).2.2 hN
    exact ⟨hrec.1.trans hx.1, hrec.2.trans hx.2⟩

/-!
The moisture raster is never written by the river pipeline.
-/

theorem markLake_moisture (cfg : Cfg) (m : MapSt) (idx : ℕ) (h : JNum) :
    (markLake cfg m idx h).moisture = m.moisture := by
  unfold markLake; split_ifs <;> rfl

theorem erodeAndMove_moisture (cfg : Cfg) (m : MapSt) (idx : ℕ) (ch minH : JNum)
    (nx ny : ℕ) (w : ℚ) (v c : List ℕ) (p : ℕ) :
    (erodeAndMove cfg m idx ch minH nx ny w v c p).mapSt.moisture = m.moisture := by
  simp only [erodeAndMove, BodyRes.mapSt]
  split_ifs <;> rfl

theorem localMinima_moisture (cfg : Cfg) (m1 : MapSt) (x y : ℕ) (ch s1h : JNum)
    (w : ℚ) (v c : List ℕ) (p : ℕ) :
    (localMinima cfg m1 x y ch s1h w v c p).mapSt.moisture = m1.moisture := by
  simp only [localMinima]
  split_ifs <;>
    simp [BodyRes.mapSt_done, markLake_moisture, erodeAndMove_moisture]

theorem descendStep_moisture (cfg : Cfg) (m1 : MapSt) (x y : ℕ) (ch : JNum)
    (w : ℚ) (v c : List ℕ) (p : ℕ) :
    (descendStep cfg m1 x y ch w v c p).mapSt.moisture = m1.moisture := by
  simp only [descendStep]
  split_ifs <;> simp [localMinima_moisture, erodeAndMove_moisture]

theorem dropletBody_moisture (cfg : Cfg) (st : DropSt) :
    (dropletBody cfg st).mapSt.moisture = st.m.moisture := by
  simp only [dropletBody]
  split_ifs <;>
    first
    | rfl
    | exact descendStep_moisture _ _ _ _ _ _ _ _ _

theorem dropletLoop_moisture (cfg : Cfg) (fuel : ℕ) (st : DropSt) :
    (dropletLoop cfg fuel st).1.moisture = st.m.moisture := by
  induction fuel generalizing st with
  | zero => rfl
  | succ n ih =>
    cases hb : dropletBody cfg st with
    | done m p =>
      rw [dropletLoop_succ_done cfg n st m p hb]
      have h := dropletBody_moisture cfg st
      rw [hb] at h
      exact h
    | next stN =>
      rw [dropletLoop_succ_next cfg n st stN hb]
      have h := dropletBody_moisture cfg st
      rw [hb, BodyRes.mapSt_next] at h
      rw [ih stN, h]

theorem simulateDroplet_moisture (cfg : Cfg) (m : MapSt) (sx sy : ℕ) :
    (simulateDroplet cfg m sx sy).1.moisture = m.moisture :=
  dropletLoop_moisture cfg cfg.maxIter ⟨m, sx, sy, cfg.initialWater, [], [], 0⟩

/-!
Helpers about a whole `handleGenerateRivers` run.
-/

theorem handleGenerateRivers_flux_exists (cfg : Cfg) (m0 : MapSt) (N rng : ℕ) (i : ℕ) :
    ∃ k : ℕ, k ≤ N ∧ (handleGenerateRivers cfg m0 N rng).m.flux i = (k : ℚ) := by
  simp only [handleGenerateRivers]
  split_ifs with h0
  · exact ⟨0, Nat.zero_le N, by simp⟩
  · obtain ⟨k, hk, h⟩ := runDroplets_flux cfg (landCoords cfg m0.hmap) N
      { m0 with flux := fun _ => 0, lakes := fun _ => 0 } rng 0 i
    exact ⟨k, hk, by simpa using h⟩

theorem handleGenerateRivers_ocean_flux (cfg : Cfg) (m0 : MapSt) (N rng : ℕ) (i : ℕ)
    (h : jle (m0.hmap i) (.fin cfg.seaLevel) = true) :
    (handleGenerateRivers cfg m0 N rng).m.flux i = 0 := by
  simp only [handleGenerateRivers]
  split_ifs with h0
  · rfl
  · have hr := runDroplets_ocean cfg (landCoords cfg m0.hmap) N
      { m0 with flux := fun _ => 0, lakes := fun _ => 0 } rng 0 i h
    simpa using hr.2

theorem jle_fin_not_jlt (a : JNum) (s : ℚ) (h : jle a (.fin s) = true) :
    jlt (.fin s) a = false := by
  cases a with
  | fin q =>
    simp [jle] at h
    simp [jlt]
    linarith
  | posInf => simp [jle] at h
  | negInf => simp [jlt]
  | nan => simp [jle] at h

theorem landCoords_eq_nil (cfg : Cfg) (hmap : ℕ → JNum)
    (h : ∀ x, x < cfg.width → ∀ y, y < cfg.mh →
      jle (hmap (y * cfg.width + x)) (.fin cfg.seaLevel) = true) :
    landCoords cfg hmap = [] := by
  rw [List.eq_nil_iff_forall_not_mem]
  rintro ⟨x, y⟩ hmem
  simp only [landCoords, List.mem_flatMap, List.mem_filterMap, List.mem_range] at hmem
  obtain ⟨y1, hy1, x1, hx1, hopt⟩ := hmem
  simp [jle_fin_not_jlt _ _ (h x1 hx1 y1 hy1)] at hopt

/-!
Claim theorems.
-/

/-- C2: whenever an iteration of the droplet loop changes a lake mark,
it sets it to 1 and the height stored at that cell at that moment
(the deposition-raised height in the failed-spill branch, the current
height in the closed-set branch) strictly exceeds
`seaLevel + MIN_LAKE_DEPTH`; no other write of the simulation touches
the lake raster. -/
theorem lakes_marked_only_above_threshold (cfg : Cfg) (st : DropSt) (i : ℕ)
    (h : (dropletBody cfg st).mapSt.lakes i ≠ st.m.lakes i) :
    (dropletBody cfg st).mapSt.lakes i = 1 ∧
    jlt (.fin (cfg.seaLevel + cfg.minLakeDepth))
      ((dropletBody cfg st).mapSt.hmap i) = true := by
  rcases dropletBody_lakes_char cfg st i with h2 | h2
  · exact absurd h2 h
  · exact h2

/-- Witness for C2: a droplet sitting in a deep one-cell pit deposits,
fails to spill, and marks the pit as a lake; the raised height clears
the depth threshold. -/
theorem lakes_marked_only_above_threshold_witness :
    (dropletBody testCfg (midSt pitMap)).mapSt.lakes 4 = 1 ∧
    jlt (.fin (testCfg.seaLevel + testCfg.minLakeDepth))
      ((dropletBody testCfg (midSt pitMap)).mapSt.hmap 4) = true :=
  lakes_marked_only_above_threshold testCfg (midSt pitMap) 4 (by with_unfolding_all decide)

/-- C5: on a height raster entirely at or below sea level,
`handleGenerateRivers` succeeds with all-zero flux and lake rasters,
zero successful droplets, and a single `complete` message (no `error`
message). -/
theorem handleGenerateRivers_pure_ocean_zero_result (cfg : Cfg) (m0 : MapSt)
    (N rng : ℕ)
    (h : ∀ x, x < cfg.width → ∀ y, y < cfg.mh →
      jle (m0.hmap (y * cfg.width + x)) (.fin cfg.seaLevel) = true) :
    (handleGenerateRivers cfg m0 N rng).m.flux = (fun _ => 0) ∧
    (handleGenerateRivers cfg m0 N rng).m.lakes = (fun _ => 0) ∧
    (handleGenerateRivers cfg m0 N rng).succ = 0 ∧
    (handleGenerateRivers cfg m0 N rng).msgs = [.complete N 0] := by
  have hlc : landCoords cfg m0.hmap = [] := landCoords_eq_nil cfg m0.hmap h
  simp [handleGenerateRivers, hlc]

/-- Witness for C5: a pure-ocean 3 by 3 raster yields the zero result
with a single `complete` message. -/
theorem handleGenerateRivers_pure_ocean_zero_result_witness :
    (handleGenerateRivers testCfg oceanMap 5 0).succ = 0 ∧
    (handleGenerateRivers testCfg oceanMap 5 0).msgs = [.complete 5 0] := by
  have h := handleGenerateRivers_pure_ocean_zero_result testCfg oceanMap 5 0
    (by with_unfolding_all decide)
  exact ⟨h.2.2.1, h.2.2.2⟩

/-- C6: from an all-finite height raster, every height after a droplet
simulation is still finite (no write ever stores a non-finite value),
the moisture raster is untouched and flux only receives `+1`
increments; and a droplet whose current cell holds a non-finite height
aborts immediately, leaving the rasters unchanged. -/
theorem heights_stay_finite_and_nonfinite_aborts (cfg : Cfg) (m : MapSt)
    (sx sy : ℕ) (st : DropSt) (i : ℕ)
    (hfin : ∀ j, jfinite (m.hmap j) = true)
    (hnv : st.y * cfg.width + st.x ∉ st.visited)
    (hnf : jfinite (st.m.hmap (st.y * cfg.width + st.x)) = false) :
    jfinite ((simulateDroplet cfg m sx sy).1.hmap i) = true ∧
    (simulateDroplet cfg m sx sy).1.moisture = m.moisture ∧
    ((simulateDroplet cfg m sx sy).1.flux i = m.flux i ∨
      (simulateDroplet cfg m sx sy).1.flux i = m.flux i + 1) ∧
    dropletBody cfg st = .done st.m st.pathLen := by
  refine ⟨?_, simulateDroplet_moisture cfg m sx sy,
    simulateDroplet_flux_char cfg m sx sy i,
    dropletBody_nonfinite cfg st hnv hnf⟩
  rcases simulateDroplet_hmap_fin cfg m sx sy i with h | h
  · rw [h]
    exact hfin i
  · exact h

/-- Witness for C6: a finite 3 by 3 raster keeps a finite center
height after a droplet run, and a droplet placed on an all-`NaN`
raster aborts with the state unchanged. -/
theorem heights_stay_finite_and_nonfinite_aborts_witness :
    jfinite ((simulateDroplet testCfg spillMap 0 0).1.hmap 4) = true ∧
    dropletBody testCfg (midSt nanMap) = .done (midSt nanMap).m 0 := by
  have h := heights_stay_finite_and_nonfinite_aborts testCfg spillMap 0 0
    (midSt nanMap) 4
    (fun j => by by_cases hj : j = 4 <;> simp [spillMap, mkMap, hj, jfinite])
    (by decide) (by with_unfolding_all decide)
  exact ⟨h.1, h.2.2.2⟩

/-- C7: `handleGenerateRivers` resets the flux and lake rasters, so
its result does not depend on the incoming flux or lake rasters (no
leakage between runs); every final flux value is nonnegative; a cell
at or below sea level in the incoming raster is never incremented; at
the step level the ocean check precedes the flux increment, and each
iteration adds exactly 1 to at most the current cell. -/
theorem flux_reset_nonneg_and_ocean_untouched (cfg : Cfg) (hm : ℕ → JNum)
    (mo te f1 f2 : ℕ → ℚ) (l1 l2 : ℕ → ℕ) (N rng i : ℕ) :
    handleGenerateRivers cfg ⟨hm, mo, te, f1, l1⟩ N rng =
      handleGenerateRivers cfg ⟨hm, mo, te, f2, l2⟩ N rng ∧
    0 ≤ (handleGenerateRivers cfg ⟨hm, mo, te, f1, l1⟩ N rng).m.flux i ∧
    (jle (hm i) (.fin cfg.seaLevel) = true →
      (handleGenerateRivers cfg ⟨hm, mo, te, f1, l1⟩ N rng).m.flux i = 0) ∧
    (∀ st : DropSt,
      jle (st.m.hmap (st.y * cfg.width + st.x)) (.fin cfg.seaLevel) = true →
        (dropletBody cfg st).mapSt.flux = st.m.flux) ∧
    (∀ st : DropSt,
      (dropletBody cfg st).mapSt.flux i = st.m.flux i ∨
      (dropletBody cfg st).mapSt.flux i = st.m.flux i + 1) := by
  refine ⟨rfl, ?_, ?_, ?_, ?_⟩
  · obtain ⟨k, _, hk⟩ :=
      handleGenerateRivers_flux_exists cfg ⟨hm, mo, te, f1, l1⟩ N rng i
    rw [hk]
    exact_mod_cast Nat.zero_le k
  · intro h
    exact handleGenerateRivers_ocean_flux cfg ⟨hm, mo, te, f1, l1⟩ N rng i h
  · intro st h
    rw [dropletBody_ocean cfg st h]
    rfl
  · intro st
    rcases dropletBody_flux_char cfg st with h | ⟨_, h⟩
    · exact Or.inl (congrFun h i)
    · by_cases hi : i = st.y * cfg.width + st.x
      · refine Or.inr ?_
        have := congrFun h i
        rw [hi, upd_same, ← hi] at this
        exact this
      · refine Or.inl ?_
        have := congrFun h i
        rw [upd_other _ _ _ _ hi] at this
        exact this

/-- Witness for C7: on a pure-ocean raster the ocean cell keeps flux 0
after a 4-droplet run. -/
theorem flux_reset_nonneg_and_ocean_untouched_witness :
    (handleGenerateRivers testCfg oceanMap 4 0).m.flux 0 = 0 :=
  (flux_reset_nonneg_and_ocean_untouched testCfg (fun _ => .fin (1/5))
    (fun _ => 0) (fun _ => 0) (fun _ => 0) (fun _ => 0) (fun _ => 0) (fun _ => 0)
    4 0 0).2.2.1 (by with_unfolding_all decide)

/-- C9: `simulateDroplet` always terminates, with a returned path
length of at most `MAX_DROPLET_ITERATIONS` (1000 in the source
configuration), for every start cell and every height raster. -/
theorem simulateDroplet_pathLen_le_maxIter (cfg : Cfg) (m : MapSt) (sx sy : ℕ) :
    (simulateDroplet cfg m sx sy).2 ≤ cfg.maxIter ∧
    (simulateDroplet workerCfg m sx sy).2 ≤ 1000 :=
  ⟨simulateDroplet_pathLen cfg m sx sy, simulateDroplet_pathLen workerCfg m sx sy⟩

/-- C10: a single droplet increments a cell's flux by at most 1, and
after a run with `N` droplets every flux value is a whole number `k`
with `0 ≤ k ≤ N`. -/
theorem flux_wholeNumber_bounded_by_droplets (cfg : Cfg) (m0 : MapSt) (N rng : ℕ)
    (m : MapSt) (sx sy i : ℕ) :
    (simulateDroplet cfg m sx sy).1.flux i ≤ m.flux i + 1 ∧
    ∃ k : ℕ, k ≤ N ∧ (handleGenerateRivers cfg m0 N rng).m.flux i = (k : ℚ) := by
  constructor
  · rcases simulateDroplet_flux_char cfg m sx sy i with h | h <;> (rw [h]; try linarith)
  · exact handleGenerateRivers_flux_exists cfg m0 N rng i

/-- C3 (code bug): the worker PRNG stream driving droplet start-cell
selection does not derive from the configured seed — `handleInit`
reseeds only through a `seed` method the noise module does not have,
so the stream is the seed-0 Mulberry32 stream for every configured
seed; and that stream differs from the Mulberry32 stream of a
configured seed such as 1. -/
theorem worker_rng_ignores_configured_seed :
    (∀ s1 s2 : ℤ, workerRngAfterInit s1 = workerRngAfterInit s2) ∧
    mulberrySeq (toU32 1) 0 ≠ mulberrySeq (toU32 0) 0 ∧
    (∀ (cfg : Cfg) (m : MapSt) (N : ℕ) (s : ℤ),
      handleGenerateRivers cfg m N (workerRngAfterInit s) =
        handleGenerateRivers cfg m N (workerRngAfterInit 0)) := by
  refine ⟨?_, ?_, ?_⟩
  · intro s1 s2
    simp [workerRngAfterInit, noiseHasSeedMethod]
  · with_unfolding_all decide
  · intro cfg m N s
    have h : workerRngAfterInit s = workerRngAfterInit 0 := by
      simp [workerRngAfterInit, noiseHasSeedMethod]
    rw [h]

/-- C4 counterexample: a worker-creation failure (a non-concurrency
failure) makes the caller reset and run the synchronous fallback
without having executed `noise.init(terrainConfig.seed)` during the
call — the reseed at ui.js line 1093 sits after the awaited
`workerController.init()`. -/
theorem fallback_without_reseed_on_init_failure :
    uiGenerateRivers .idle (some "Worker creation failed") .success =
      (.fellBack false, .idle, false) := by
  with_unfolding_all decide

/-- C4 amended: a `generateRivers` call while the controller is
`GENERATING` raises exactly the concurrency error, sends no command
and leaves the state unchanged; every other failure of the awaited
generation resets the controller and falls back after the reseed; but
a failure of `workerController.init()` itself falls back without the
reseed. -/
theorem concurrency_rejection_and_fallback_policy (gen : WorkerGenOutcome)
    (genMsg initMsg : String) (hg : genMsg ≠ concurrencyMsg)
    (hi : initMsg ≠ concurrencyMsg) :
    ctrlGenStart .generating = .rejected concurrencyMsg ∧
    (∀ g : WorkerGenOutcome,
      uiGenerateRivers .generating none g =
        (.raised concurrencyMsg, .generating, false)) ∧
    uiGenerateRivers .ready none (.failure genMsg) = (.fellBack true, .idle, true) ∧
    uiGenerateRivers .idle (some initMsg) gen = (.fellBack false, .idle, false) := by
  refine ⟨rfl, ?_, ?_, ?_⟩
  · intro g
    simp [uiGenerateRivers, ctrlGenStart]
  · simp [uiGenerateRivers, ctrlGenStart, hg]
  · simp [uiGenerateRivers, hi]

/-- Witness for the amended C4: concrete non-concurrency messages. -/
theorem concurrency_rejection_and_fallback_policy_witness :
    ("worker exec error" ≠ concurrencyMsg) ∧
    uiGenerateRivers .ready none (.failure "worker exec error") =
      (.fellBack true, .idle, true) ∧
    uiGenerateRivers .idle (some "Worker creation failed") .success =
      (.fellBack false, .idle, false) := by
  have h := concurrency_rejection_and_fallback_policy .success
    "worker exec error" "Worker creation failed" (by decide) (by decide)
  exact ⟨by decide, h.2.2.1, h.2.2.2⟩

/-- C8 counterexample: at the pole with a positive temperature offset
and full elevation, the build-path formula (which floors the
penalty-reduced temperature at 0 before adding the offset) gives 0.3
while the claimed formula gives 0; and the preview-path formula (0.6 /
0.4 weights, multiplicative elevation factor) disagrees with the
claimed formula as well. -/
theorem temperature_formula_mismatch :
    generateTemperatureAt 200 0 2 (3/10) 0 1 0 ≠
      specTemperatureAt 200 0 2 (3/10) 0 1 0 ∧
    previewTemperatureAt (7/20) 0 0 0 (1/2) ≠
      specTemperatureAt 10000 0 2 0 0 0 (1/2) := by
  with_unfolding_all decide

/-- C8 amended: on the build path the generated temperature always
equals the claimed formula with the altitude penalty floored at zero
before the user offset is added, and it equals the claimed formula
itself whenever that pre-offset value (latitude / noise blend minus
the altitude penalty) is nonnegative; the preview path uses a
different formula entirely (its divergence is the counterexample's
second conjunct). -/
theorem generateTemperatureAt_eq_spec_when_no_floor (mapH : ℕ)
    (baseline rate off : ℚ) (y : ℕ) (elev noiseV : ℚ)
    (h : 0 ≤ (1 - |(y : ℚ) / (mapH : ℚ) - 1/2| * 2) * (7/10) + noiseV * (3/10) -
      max 0 (elev - baseline) * rate) :
    (∀ (mh : ℕ) (b r o : ℚ) (y2 : ℕ) (e nv : ℚ),
      generateTemperatureAt mh b r o y2 e nv =
        specFlooredTemperatureAt mh b r o y2 e nv) ∧
    generateTemperatureAt mapH baseline rate off y elev noiseV =
      specTemperatureAt mapH baseline rate off y elev noiseV := by
  constructor
  · intro mh b r o y2 e nv
    rfl
  · simp only [generateTemperatureAt, specTemperatureAt]
    rw [max_eq_right h]

/-- Witness for the amended C8: at the equator with no altitude
penalty the build path, the floored formula and the claimed formula
all agree. -/
theorem generateTemperatureAt_eq_spec_when_no_floor_witness :
    ((0 : ℚ) ≤ (1 - |(100 : ℚ) / (200 : ℚ) - 1/2| * 2) * (7/10) + 0 * (3/10) -
      max 0 ((0 : ℚ) - 0) * 2) ∧
    generateTemperatureAt 200 0 2 (1/10) 100 0 0 =
      specFlooredTemperatureAt 200 0 2 (1/10) 100 0 0 ∧
    generateTemperatureAt 200 0 2 (1/10) 100 0 0 =
      specTemperatureAt 200 0 2 (1/10) 100 0 0 := by
  have h := generateTemperatureAt_eq_spec_when_no_floor 200 0 2 (1/10) 100 0 0
    (by with_unfolding_all decide)
  exact ⟨by with_unfolding_all decide, h.1 200 0 2 (1/10) 100 0 0, h.2⟩

/-- C1: at a local minimum not yet in the closed set (with all earlier
guards passed), the droplet deposits exactly
`DEPOSITION_RATE * waterVolume` onto the current cell, re-scans the 8
neighbors against the raised height, and moves to the re-scanned
lowest neighbor without marking a lake exactly when the raised height
is at least that neighbor's height minus the 0.001 tolerance and the
neighbor is a different cell; otherwise it stops, marking a lake only
when the raised height clears `seaLevel + MIN_LAKE_DEPTH`. -/
theorem dropletBody_fill_and_spill (cfg : Cfg) (st : DropSt) (c : ℚ)
    (hv : st.y * cfg.width + st.x ∉ st.visited)
    (hch : st.m.hmap (st.y * cfg.width + st.x) = .fin c)
    (hw : ¬ (st.water - cfg.evapRate < cfg.minWater))
    (hsea : ¬ (c ≤ cfg.seaLevel))
    (hscan : scanLowest cfg st.m.hmap st.x st.y (.fin c) = ⟨st.x, st.y, .fin c⟩)
    (hcl : st.y * cfg.width + st.x ∉ st.closed)
    (hms : 0 < cfg.minSlope) :
    dropletBody cfg st =
      (let idx := st.y * cfg.width + st.x
       let w := st.water - cfg.evapRate
       let m2 : MapSt :=
         { st.m with
             flux := upd st.m.flux idx (st.m.flux idx + 1)
             hmap := upd st.m.hmap idx (.fin (c + cfg.depositionRate * w)) }
       let s2 := scanLowest cfg m2.hmap st.x st.y (.fin (c + cfg.depositionRate * w))
       if jge (.fin (c + cfg.depositionRate * w)) (jsubQ s2.h cfg.overflowTol) ∧
           (s2.nx ≠ st.x ∨ s2.ny ≠ st.y) then
         .next ⟨m2, s2.nx, s2.ny, w, idx :: st.visited, idx :: st.closed,
           st.pathLen + 1⟩
       else
         .done (markLake cfg m2 idx (.fin (c + cfg.depositionRate * w)))
           st.pathLen) := by
  have hms2 : ¬ cfg.minSlope < (0 : ℚ) := by linarith
  simp only [dropletBody, descendStep, localMinima, erodeAndMove,
    hch, jfinite, jaddQ, jsub, sub_self, hscan, jlt, jle,
    decide_eq_true_eq, hv, hw, hsea, hcl, hms2,
    not_false_eq_true, not_true, if_false, if_true, ite_true, ite_false]
  simp [and_self]

set_option maxRecDepth 8000 in
/-- Witness for C1: the fill-and-spill step formula instantiated on a
shallow one-cell pit at the center of a 3 by 3 grid, with every guard
hypothesis discharged by evaluation. -/
theorem dropletBody_fill_and_spill_witness :
    dropletBody testCfg (midSt spillMap) =
      (let idx := (midSt spillMap).y * testCfg.width + (midSt spillMap).x
       let w := (midSt spillMap).water - testCfg.evapRate
       let m2 : MapSt :=
         { (midSt spillMap).m with
             flux := upd (midSt spillMap).m.flux idx ((midSt spillMap).m.flux idx + 1)
             hmap := upd (midSt spillMap).m.hmap idx
               (.fin (1/2 + testCfg.depositionRate * w)) }
       let s2 := scanLowest testCfg m2.hmap (midSt spillMap).x (midSt spillMap).y
         (.fin (1/2 + testCfg.depositionRate * w))
       if jge (.fin (1/2 + testCfg.depositionRate * w)) (jsubQ s2.h testCfg.overflowTol) ∧
           (s2.nx ≠ (midSt spillMap).x ∨ s2.ny ≠ (midSt spillMap).y) then
         .next ⟨m2, s2.nx, s2.ny, w, idx :: (midSt spillMap).visited,
           idx :: (midSt spillMap).closed, (midSt spillMap).pathLen + 1⟩
       else
         .done (markLake testCfg m2 idx (.fin (1/2 + testCfg.depositionRate * w)))
           (midSt spillMap).pathLen) :=
  dropletBody_fill_and_spill testCfg (midSt spillMap) (1/2)
    (by decide) rfl (by with_unfolding_all decide) (by with_unfolding_all decide)
    (by with_unfolding_all decide) (by decide) (by with_unfolding_all decide)
